import Mathlib

/-!
Verification of the `pooler` resource-pool library.

The definitions below are a shallow embedding of the TypeScript sources:
  - src/backoff.ts   (new_backoff_generator)
  - src/pool.impl.ts (NewPooler: get / put / use / buffer / drain /
                      monitor_levels / flush_deferred / fill_one /
                      retry_factory / sleep)

JavaScript specifics are modelled explicitly:
  - `Math.random()` is a parameter `rand : Nat → ℚ` (one sample per attempt
    index), assumed to lie in `[0, 1)` where the spec assumes it.
  - JS truthiness (`if (!x)`) is a parameter `falsy : T → Bool` of the pool
    configuration; object identity (`===`) is `DecidableEq T`.
  - The single-threaded cooperative scheduler is modelled by splitting each
    async operation into its synchronous prefix (a pure state transformer)
    plus explicit completion ("settle") steps for the suspended parts.
-/

namespace PoolerModel

/-! ## Backoff generator (src/backoff.ts)

`new_backoff_generator(step, cap)` returns a generator function that, for
`retry_limit`, yields for each `i < retry_limit` the value
`eq_backoff + Math.random() * eq_backoff` with
`eq_backoff = Math.min(cap, step * 2 ** i) / 2`. -/

/-- Model of the local `eq_backoff` computed for attempt index `i`:
`Math.min(cap, step * 2 ** i) / 2`. -/
def eq_backoff (step cap : ℚ) (i : Nat) : ℚ :=
  min cap (step * 2 ^ i) / 2

/-- Model of one yielded value of the generator: the equal-jitter delay
`eq_backoff + Math.random() * eq_backoff`, with the random sample for
attempt `i` given by `rand i`. -/
def backoff_val (step cap : ℚ) (rand : Nat → ℚ) (i : Nat) : ℚ :=
  eq_backoff step cap i + rand i * eq_backoff step cap i

/-- Model of the full sequence produced by `backoff_generator(retry_limit)`:
the `for (let i = 0; i < retry_limit; i++)` loop yields exactly the values
`backoff_val step cap rand i` for `i = 0, …, retry_limit - 1`. -/
def backoff_list (step cap : ℚ) (rand : Nat → ℚ) (retry_limit : Nat) : List ℚ :=
  (List.range retry_limit).map (backoff_val step cap rand)

/-! ## Retrying factory (src/pool.impl.ts, retry_factory)

`retry_factory` loops: invoke the factory; on success return the value; on
failure pull the next backoff delay from the generator, and if the generator
is exhausted (`x.done`) throw `RetryLimitError`, else sleep and repeat.
The factory is modelled as `fac : Nat → Option T`, giving the outcome of its
`k`-th invocation (`none` = the promise rejected).  The result records the
produced value (`none` = RetryLimitError was thrown) together with the total
number of factory invocations performed. -/

/-- Model of the retry loop of `retry_factory`; `delays` is what remains of
the backoff generator and `k` counts factory invocations made so far. -/
def retry_go {T : Type} (fac : Nat → Option T) : List ℚ → Nat → Option T × Nat
  | delays, k =>
    match fac k, delays with
    | some v, _ => (some v, k + 1)
    | none, [] => (none, k + 1)
    | none, _ :: rest => retry_go fac rest (k + 1)

/-- Model of `retry_factory`: runs the retry loop against the backoff
sequence `delays`, starting with zero factory invocations. -/
def retry_factory {T : Type} (fac : Nat → Option T) (delays : List ℚ) : Option T × Nat :=
  retry_go fac delays 0

/-! ## Pool state model (src/pool.impl.ts, NewPooler)

The closure state of `NewPooler` is a record.  Beyond the mutable variables
of the source (`buf`, `deferred`, `filling`, `draining`) the model keeps an
explicit audit trail of the asynchronous machinery:

  - `pending_fills`: `fill_one()` attempts launched by the active `buffer()`
    cycle whose factory call has not settled yet (the promises in `ps`);
  - `lazy_fills`: fire-and-forget `fill_one()` calls launched directly by
    `get()` on a dry buffer;
  - `full_waiters` / `drain_waiters`: callbacks queued in `events.full` /
    `events.drained` by coalesced `buffer()` / `drain()` calls;
  - `full_signaled`: whether `invoke("full")` has run for the current cycle;
  - `cycle_failed`: whether some `fill_one()` of the current cycle rejected
    (which makes the `Promise.all` in `buffer()` reject);
  - `factory_calls`: total number of factory invocations started;
  - `destroyed`: values routed to the destructor, in order;
  - `resolved`: values handed to deferred waiters by `flush_deferred`. -/

/-- Configuration record (`PoolOptions`): capacity bounds and the two
optional health checks.  `falsy` models JS truthiness on `T` (`!x`). -/
structure PoolConfig (T : Type) where
  max : Nat
  min : Nat
  is_ok_sync : Option (T → Bool)
  is_ok : Option (T → Bool)
  falsy : T → Bool

/-- Closure state of one pool instance, plus audit fields for the
asynchronous parts (see the section comment). -/
structure PoolState (T : Type) where
  buf : List T
  deferred : Nat
  filling : Bool
  draining : Bool
  pending_fills : Nat
  lazy_fills : Nat
  full_waiters : Nat
  drain_waiters : Nat
  full_signaled : Bool
  cycle_failed : Bool
  factory_calls : Nat
  destroyed : List T
  resolved : List T
deriving DecidableEq, Repr

/-- Initial closure state: empty buffer, no waiters, no flags set. -/
def init_state (T : Type) : PoolState T :=
  { buf := [], deferred := 0, filling := false, draining := false,
    pending_fills := 0, lazy_fills := 0, full_waiters := 0, drain_waiters := 0,
    full_signaled := false, cycle_failed := false, factory_calls := 0,
    destroyed := [], resolved := [] }

/-- Model of `destroy(x)` (the wrapped destructor): the value is handed to
the destructor; destructor failures are swallowed by `wrap_err`. -/
def destroy {T : Type} (s : PoolState T) (x : T) : PoolState T :=
  { s with destroyed := s.destroyed ++ [x] }

/-- Model of the check `is_ok_sync && !is_ok_sync(x)` in `put`. -/
def sync_rejects {T : Type} (cfg : PoolConfig T) (x : T) : Bool :=
  match cfg.is_ok_sync with
  | some f => !f x
  | none => false

/-- Model of the check `is_ok && !await is_ok(x)` in `put`. -/
def async_rejects {T : Type} (cfg : PoolConfig T) (x : T) : Bool :=
  match cfg.is_ok with
  | some f => !f x
  | none => false

/-- Result of the synchronous prefix of one `buffer()` call. -/
inductive BufferCall
  | coalesced
  | noop
  | started (launched : Nat)
deriving DecidableEq, Repr

/-- Model of the synchronous prefix of `buffer(fill_to_min)`: if a fill is in
progress the call queues on the `full` event (`on_full`); otherwise it
computes `fill_to = (fill_to_min ? min : max) - size()`, returns at once if
`fill_to < 1`, and else sets the `filling` flag and launches `fill_to`
concurrent `fill_one()` attempts.  Each launched `fill_one` first checks
`size() >= max` (all see the same size, since no await has resolved yet) and
then starts a factory invocation. -/
def buffer_sync {T : Type} (cfg : PoolConfig T) (fill_to_min : Bool) (s : PoolState T) :
    PoolState T × BufferCall :=
  if s.filling then
    ({ s with full_waiters := s.full_waiters + 1 }, .coalesced)
  else
    let target := if fill_to_min then cfg.min else cfg.max
    let fill_to := target - s.buf.length
    if fill_to = 0 then (s, .noop)
    else
      let launched := if cfg.max ≤ s.buf.length then 0 else fill_to
      ({ s with filling := true,
                pending_fills := s.pending_fills + launched,
                factory_calls := s.factory_calls + launched },
       .started launched)

/-- Model of `monitor_levels`: when the buffer has dropped strictly below
`min` and the pool is not draining, fire `buffer(true)` without awaiting. -/
def monitor_levels {T : Type} (cfg : PoolConfig T) (s : PoolState T) : PoolState T :=
  if s.buf.length < cfg.min ∧ s.draining = false then (buffer_sync cfg true s).1 else s

/-- Model of the loop of `flush_deferred`; the fuel is the number of deferred
waiters still in the queue.  Per iteration the JS condition shifts one waiter
and one buffered value; a falsy shifted value ends the loop with both the
waiter and the value silently dropped; otherwise `monitor_levels` runs and
the waiter is resolved with the value. -/
def flush_go {T : Type} (cfg : PoolConfig T) : Nat → PoolState T → PoolState T
  | 0, s => s
  | fuel + 1, s =>
    match s.buf with
    | [] => s
    | x :: rest =>
      let s1 := { s with deferred := s.deferred - 1, buf := rest }
      if cfg.falsy x then s1
      else
        let s2 := monitor_levels cfg s1
        flush_go cfg fuel { s2 with resolved := s2.resolved ++ [x] }

/-- Model of `flush_deferred`. -/
def flush_deferred {T : Type} (cfg : PoolConfig T) (s : PoolState T) : PoolState T :=
  flush_go cfg s.deferred s

/-- Model of `put(x)`.  In source order: at-capacity or draining routes to
the destructor; a failing synchronous health check routes to the destructor;
a failing asynchronous health check routes to the destructor; a value already
in the buffer (by identity) throws the DuplicateValue `TypeError`
(`Except.error ()`); otherwise the value is appended and the deferred
waiters are flushed. -/
def put {T : Type} (cfg : PoolConfig T) [DecidableEq T] (s : PoolState T) (x : T) :
    Except Unit (PoolState T) :=
  if cfg.max ≤ s.buf.length ∨ s.draining = true then .ok (destroy s x)
  else if sync_rejects cfg x then .ok (destroy s x)
  else if async_rejects cfg x then .ok (destroy s x)
  else if x ∈ s.buf then .error ()
  else .ok (flush_deferred cfg { s with buf := s.buf ++ [x] })

/-- Model of a `put` whose rejection nobody observes (`fill_one` calls
`put(...)` without awaiting, so a thrown DuplicateValue leaves the state as
it was at the throw; and `Op.put` models a caller that catches the error). -/
def put_drop {T : Type} (cfg : PoolConfig T) [DecidableEq T] (s : PoolState T) (x : T) :
    PoolState T :=
  match put cfg s x with
  | .ok t => t
  | .error _ => s

/-- Model of the synchronous part of a fire-and-forget `fill_one()` launch:
if `size() >= max` it returns at once, else it starts a factory invocation
whose completion will be a later `settle_lazy` step. -/
def fill_one_launch {T : Type} (cfg : PoolConfig T) (s : PoolState T) : PoolState T :=
  if cfg.max ≤ s.buf.length then s
  else { s with lazy_fills := s.lazy_fills + 1, factory_calls := s.factory_calls + 1 }

/-- Model of `get()`.  `buf.shift()` pops the front; the JS guard `if (!x)`
is taken both when the buffer was empty and when the popped value is falsy:
in either case a lazy `fill_one()` is fired and the caller is enqueued as a
deferred waiter (`none` = the returned promise is still pending).  Otherwise
`monitor_levels` runs and the value is returned immediately. -/
def get {T : Type} (cfg : PoolConfig T) (s : PoolState T) : Option T × PoolState T :=
  match s.buf with
  | [] =>
    let s1 := fill_one_launch cfg s
    (none, { s1 with deferred := s1.deferred + 1 })
  | x :: rest =>
    let s1 := { s with buf := rest }
    if cfg.falsy x then
      let s2 := fill_one_launch cfg s1
      (none, { s2 with deferred := s2.deferred + 1 })
    else
      (some x, monitor_levels cfg s1)

/-- Outcome of one `fill_one()` attempt of a fill cycle: the retrying
factory either produced a value or threw RetryLimitError. -/
inductive SlotOutcome (T : Type)
  | ok (v : T)
  | retry_limit
deriving DecidableEq, Repr

/-- Completion step for one attempt of the active `buffer()` cycle.  On
success the value is `put` (the rejection of that inner `put` is unhandled in
`fill_one`, hence `put_drop`); on RetryLimitError the attempt rejects, which
makes the cycle-local `Promise.all` reject (`cycle_failed`).  When the last
attempt settles and none rejected, `buffer()` resumes: the `filling` flag is
cleared and `invoke("full")` flushes the queued waiters. -/
def settle_slot {T : Type} (cfg : PoolConfig T) [DecidableEq T] (s : PoolState T)
    (o : SlotOutcome T) : PoolState T :=
  if s.pending_fills = 0 then s
  else
    let s1 := match o with
      | .ok v => put_drop cfg s v
      | .retry_limit => { s with cycle_failed := true }
    let s2 := { s1 with pending_fills := s1.pending_fills - 1 }
    if s2.pending_fills = 0 ∧ s2.cycle_failed = false then
      { s2 with filling := false, full_signaled := true, full_waiters := 0 }
    else s2

/-- Completion step for a lazy `fill_one()` fired by `get()`: the produced
value is `put` (again fire-and-forget). -/
def settle_lazy {T : Type} (cfg : PoolConfig T) [DecidableEq T] (s : PoolState T)
    (v : T) : PoolState T :=
  if s.lazy_fills = 0 then s
  else { put_drop cfg s v with lazy_fills := s.lazy_fills - 1 }

/-- Result of the synchronous prefix of one `drain()` call. -/
inductive DrainCall
  | coalesced
  | started
deriving DecidableEq, Repr

/-- Model of the pop loop `while ((x = buf.shift()))` of `drain`: values are
shifted and sent to the destructor until the buffer is empty — except that a
falsy value stops the loop after being shifted (it is neither destroyed nor
kept).  Returns the destroyed values in order and the remaining buffer. -/
def drain_pop {T : Type} (cfg : PoolConfig T) : List T → List T × List T
  | [] => ([], [])
  | x :: rest =>
    if cfg.falsy x then ([], rest)
    else
      let p := drain_pop cfg rest
      (x :: p.1, p.2)

/-- Model of the synchronous prefix of `drain()`: an already-draining pool
queues the call on the `drained` event; otherwise the draining flag is set,
pending backoff sleeps are cancelled (see the cancellation machine below),
and every buffered value is shifted out and sent to the destructor. -/
def drain_sync {T : Type} (cfg : PoolConfig T) (s : PoolState T) :
    PoolState T × DrainCall :=
  if s.draining then
    ({ s with drain_waiters := s.drain_waiters + 1 }, .coalesced)
  else
    let p := drain_pop cfg s.buf
    ({ s with draining := true, buf := p.2, destroyed := s.destroyed ++ p.1 }, .started)

/-- Outcome of a `use(callback, onError)` call. -/
inductive UseOutcome (E : Type)
  | enqueued
  | ok
  | failed (e : E)
  | put_threw
deriving DecidableEq, Repr

/-- Model of `use(callback, onError)`: acquire with `get`; if the promise is
still pending the caller is enqueued (`enqueued`).  With a value in hand the
callback runs (its outcome is `cb x`); on failure the error is logged, the
value is sent to the destructor, and `onError` is invoked exactly once with
the thrown value (`failed e`) — nothing is re-thrown.  On success the value
is returned via `put`, whose DuplicateValue error would reject the `use`
promise (`put_threw`). -/
def use {T E : Type} (cfg : PoolConfig T) [DecidableEq T] (cb : T → Except E Unit)
    (s : PoolState T) : PoolState T × UseOutcome E :=
  match get cfg s with
  | (none, s1) => (s1, .enqueued)
  | (some x, s1) =>
    match cb x with
    | .error e => (destroy s1 x, .failed e)
    | .ok _ =>
      match put cfg s1 x with
      | .ok s2 => (s2, .ok)
      | .error _ => (s1, .put_threw)

/-- Caller-visible operations for operation sequences (claim C1). -/
inductive Op (T : Type)
  | get
  | put (v : T)

/-- One caller operation: `get()` (its returned value, if any, goes to the
caller) or `put(v)` (a thrown DuplicateValue goes to the caller and leaves
the pool state as it was). -/
def op_step {T : Type} (cfg : PoolConfig T) [DecidableEq T] (s : PoolState T) :
    Op T → PoolState T
  | .get => (get cfg s).2
  | .put v => put_drop cfg s v

/-- Run a sequence of caller operations. -/
def run_ops {T : Type} (cfg : PoolConfig T) [DecidableEq T] (s : PoolState T)
    (ops : List (Op T)) : PoolState T :=
  ops.foldl (op_step cfg) s

/-- Iterated `get()`: pops `n` values (claim C2 scenario). -/
def get_n {T : Type} (cfg : PoolConfig T) : Nat → PoolState T → PoolState T
  | 0, s => s
  | n + 1, s => get_n cfg n (get cfg s).2

/-- Concrete pool configuration over JS numbers (modelled as `Nat`, where
only `0` is falsy) with no health checks, used to evaluate the model. -/
def cfg_demo (mx mn : Nat) : PoolConfig Nat :=
  { max := mx, min := mn, is_ok_sync := none, is_ok := none, falsy := fun x => x == 0 }

/-- Construction of the C2 scenario pool (`max=10, min=2, buffer_on_start`):
`NewPooler` awaits `buffer()`, which launches ten `fill_one()` attempts;
the ten factory promises then settle with the fresh values `1, …, 10`. -/
def c2_ctor : PoolState Nat :=
  List.foldl (fun t k => settle_slot (cfg_demo 10 2) t (.ok k))
    (buffer_sync (cfg_demo 10 2) false (init_state Nat)).1
    [1, 2, 3, 4, 5, 6, 7, 8, 9, 10]

/-- State of the C2 scenario after eight awaited `get()` calls. -/
def c2_after8 : PoolState Nat :=
  get_n (cfg_demo 10 2) 8 c2_ctor

/-- State of the C2 scenario after a ninth `get()` call, which brings the
size to 1 < min and therefore fires a background `buffer(true)`. -/
def c2_after9 : Option Nat × PoolState Nat :=
  get (cfg_demo 10 2) c2_after8

/-- Final state of the C2 scenario once the background fill attempt settles
with the fresh value 11. -/
def c2_final : PoolState Nat :=
  settle_slot (cfg_demo 10 2) c2_after9.2 (.ok 11)

/-- Pool state holding the single value 5, used for the C3 counterexample. -/
def c3_state : PoolState Nat :=
  { init_state Nat with buf := [5] }

/-- Predicate: this `put` call threw the DuplicateValue TypeError. -/
def put_raises {T : Type} (cfg : PoolConfig T) [DecidableEq T] (s : PoolState T) (x : T) : Bool :=
  match put cfg s x with
  | .error _ => true
  | .ok _ => false

/-- Launch state of a two-slot fill cycle: `buffer()` on an empty pool with
`max = 2` sets the filling flag and starts two factory calls. -/
def c5_launch : PoolState Nat :=
  (buffer_sync (cfg_demo 2 0) false (init_state Nat)).1

/-- Final state of that cycle when the first attempt succeeds with 1 and the
second fails permanently with RetryLimitError. -/
def c5_final : PoolState Nat :=
  [SlotOutcome.ok 1, SlotOutcome.retry_limit].foldl (settle_slot (cfg_demo 2 0)) c5_launch

/-! ## Cancellation machine (claims about `sleep` / `drain`, claim C9)

`sleep(ms)` schedules a `setTimeout` whose callback sets `done` and invokes
the registered listeners; `cancel()` runs `clearTimeout` when the callback
has not fired; `then(fn)` registers `fn` (or runs it at once when already
done).  `retry_factory` suspends on
`await new Promise(resolve => tkn.then(resolve))`, so its loop resumes only
when the token fires.  `buffer()` resumes, clears `filling` and invokes the
`full` event only when every `fill_one` of the cycle settles, and a
`buffer()` call that sees `filling` suspends on the `full` event.  The
machine below is the reachable-state system of one fill cycle whose single
in-flight attempt is suspended on a backoff sleep, after `drain()` has run
`sleeping.forEach(tkn => tkn.cancel())`. -/

/-- Observable state of a fill cycle with one attempt suspended on a backoff
sleep token. -/
structure CycleSt where
  timer_active : Bool
  sleep_done : Bool
  fired : Nat
  attempt_resumed : Bool
  attempt_settled : Bool
  filling : Bool
  full_signaled : Bool
  full_waiters : Nat
  resumed_waiters : Nat
deriving DecidableEq, Repr

/-- State while `retry_factory` is suspended on a backoff delay: the timeout
is scheduled, nothing has fired, the cycle is filling. -/
def mid_backoff : CycleSt :=
  { timer_active := true, sleep_done := false, fired := 0,
    attempt_resumed := false, attempt_settled := false,
    filling := true, full_signaled := false, full_waiters := 0,
    resumed_waiters := 0 }

/-- Model of `SleepToken.cancel()`: `if (!done) clearTimeout(timer)` —
idempotent, and a no-op on an already-fired token. -/
def cancel_sleep (s : CycleSt) : CycleSt :=
  if s.sleep_done then s else { s with timer_active := false }

/-- Events that can occur after the drain: the timeout fires (only possible
while scheduled), the resumed retry loop lets its `fill_one` settle, the
settled cycle completes (`filling := false; invoke("full")`), another
`buffer()` call coalesces onto the in-flight cycle, or another `drain()`
cancels the token again. -/
inductive CycleStep : CycleSt → CycleSt → Prop
  | timer_fire (s : CycleSt) (h1 : s.timer_active = true) (h2 : s.sleep_done = false) :
      CycleStep s { s with timer_active := false, sleep_done := true,
                           fired := s.fired + 1, attempt_resumed := true }
  | attempt_settle (s : CycleSt) (h : s.attempt_resumed = true) :
      CycleStep s { s with attempt_settled := true }
  | cycle_complete (s : CycleSt) (h : s.attempt_settled = true) :
      CycleStep s { s with filling := false, full_signaled := true,
                           resumed_waiters := s.resumed_waiters + s.full_waiters,
                           full_waiters := 0 }
  | buffer_coalesce (s : CycleSt) (h : s.filling = true) :
      CycleStep s { s with full_waiters := s.full_waiters + 1 }
  | cancel_again (s : CycleSt) :
      CycleStep s (cancel_sleep s)

/-- Invariant of the post-cancellation system: the token can never fire
again, so nothing downstream of it ever happens. -/
def CycleInv (s : CycleSt) : Prop :=
  s.timer_active = false ∧ s.sleep_done = false ∧ s.fired = 0 ∧
  s.attempt_resumed = false ∧ s.attempt_settled = false ∧
  s.filling = true ∧ s.full_signaled = false ∧ s.resumed_waiters = 0

/-! ## Theorems -/

/-- Generic count bound for the retry loop. -/
theorem retry_go_count_le {T : Type} (fac : Nat → Option T) :
    ∀ (delays : List ℚ) (k : Nat), (retry_go fac delays k).2 ≤ k + delays.length + 1 := by
  intro delays
  induction delays with
  | nil =>
    intro k
    unfold retry_go
    cases fac k <;> simp
  | cons d rest ih =>
    intro k
    unfold retry_go
    cases fac k
    · have h := ih (k + 1)
      simp only [List.length_cons]
      omega
    · simp

/-- With an always-failing factory the retry loop consumes the entire backoff
sequence and performs one more invocation than there are delays. -/
theorem retry_go_all_fail {T : Type} (fac : Nat → Option T) (hfac : ∀ k, fac k = none) :
    ∀ (delays : List ℚ) (k : Nat), retry_go fac delays k = (none, k + delays.length + 1) := by
  intro delays
  induction delays with
  | nil =>
    intro k
    unfold retry_go
    rw [hfac k]
    simp
  | cons d rest ih =>
    intro k
    unfold retry_go
    rw [hfac k]
    simp only [ih (k + 1), List.length_cons]
    have harith : k + 1 + rest.length + 1 = k + (rest.length + 1) + 1 := by omega
    rw [harith]

/-- Counterexample for claim C6: with base step `0` (and cap `30`, jitter sample `0`,
retry limit `1`) the single produced value is `0`, while `eq_backoff = 0`,
so the value does NOT lie in the half-open interval
`[eq_backoff, 2 * eq_backoff) = [0, 0)`, which is empty.  This refutes the
claim as universally quantified over every base step and cap. -/
theorem backoff_degenerate_interval :
    backoff_list 0 30 (fun _ => 0) 1 = [0] ∧
    ¬(eq_backoff 0 30 0 ≤ backoff_val 0 30 (fun _ => 0) 0 ∧
      backoff_val 0 30 (fun _ => 0) 0 < 2 * eq_backoff 0 30 0) := by
  constructor
  · simp [backoff_list, backoff_val, eq_backoff, List.range_succ]
  · intro h
    have h2 := h.2
    simp [backoff_val, eq_backoff] at h2

/-- Amended claim C6: for every positive base step and cap, every jitter function
with samples in `[0, 1)` and every retry limit, the generator produces exactly
`retry_limit` values, and the `i`-th value lies in
`[eq_backoff, 2 * eq_backoff)` where `eq_backoff = min cap (step * 2 ^ i) / 2`,
and never exceeds `cap`. -/
theorem backoff_bounds (step cap : ℚ) (rand : Nat → ℚ) (retry_limit : Nat)
    (hstep : 0 < step) (hcap : 0 < cap)
    (hrand : ∀ i, 0 ≤ rand i ∧ rand i < 1) :
    (backoff_list step cap rand retry_limit).length = retry_limit ∧
    ∀ i, i < retry_limit →
      (backoff_list step cap rand retry_limit)[i]? = some (backoff_val step cap rand i) ∧
      eq_backoff step cap i ≤ backoff_val step cap rand i ∧
      backoff_val step cap rand i < 2 * eq_backoff step cap i ∧
      backoff_val step cap rand i ≤ cap := by
  have hhalf : ∀ i : Nat, 0 < eq_backoff step cap i := by
    intro i
    have hpow : (0 : ℚ) < step * 2 ^ i := by positivity
    have : (0 : ℚ) < min cap (step * 2 ^ i) := lt_min hcap hpow
    unfold eq_backoff
    positivity
  constructor
  · simp [backoff_list]
  · intro i hi
    refine ⟨?_, ?_, ?_, ?_⟩
    · simp [backoff_list, List.getElem?_map, List.getElem?_range, hi]
    · have := mul_nonneg (hrand i).1 (le_of_lt (hhalf i))
      unfold backoff_val
      linarith
    · have := mul_lt_mul_of_pos_right (hrand i).2 (hhalf i)
      unfold backoff_val
      linarith
    · have htwo : 2 * eq_backoff step cap i = min cap (step * 2 ^ i) := by
        unfold eq_backoff
        ring
      have hmin : min cap (step * 2 ^ i) ≤ cap := min_le_left _ _
      have := mul_lt_mul_of_pos_right (hrand i).2 (hhalf i)
      unfold backoff_val
      linarith

/-- Witness for `backoff_bounds` at step 1, cap 30, jitter 1/2, limit 2. -/
theorem backoff_bounds_witness :
    (backoff_list 1 30 (fun _ => 1/2) 2).length = 2 ∧
    ((backoff_list 1 30 (fun _ => 1/2) 2)[1]? = some (backoff_val 1 30 (fun _ => 1/2) 1) ∧
      eq_backoff 1 30 1 ≤ backoff_val 1 30 (fun _ => 1/2) 1 ∧
      backoff_val 1 30 (fun _ => 1/2) 1 < 2 * eq_backoff 1 30 1 ∧
      backoff_val 1 30 (fun _ => 1/2) 1 ≤ 30) :=
  have h := backoff_bounds 1 30 (fun _ => 1/2) 2 (by norm_num) (by norm_num)
    (fun i => by norm_num)
  ⟨h.1, h.2 1 (by norm_num)⟩

/-- Counterexample for claim C4: with `max_retries = 1` and an always-failing factory,
`retry_factory` invokes the factory exactly twice (the first attempt fails,
the generator yields one delay, the second attempt fails, the generator is
exhausted and RetryLimitError is thrown), not once as claimed. -/
theorem retry_factory_two_invocations :
    retry_factory (fun _ => (none : Option Int)) (backoff_list 1 30 (fun _ => 0) 1) = (none, 2) ∧
    ¬(2 ≤ 1) := by
  constructor
  · rfl
  · decide

/-- Amended claim C4: a fill slot driven by a backoff generator of `max_retries`
delays invokes the factory at most `max_retries + 1` times, and with an
always-failing factory exactly `max_retries + 1` times before the
RetryLimitError is signalled (`none` in the result). -/
theorem retry_factory_invocation_bound {T : Type} (step cap : ℚ) (rand : Nat → ℚ)
    (fac : Nat → Option T) (max_retries : Nat) :
    (retry_factory fac (backoff_list step cap rand max_retries)).2 ≤ max_retries + 1 ∧
    ((∀ k, fac k = none) →
      retry_factory fac (backoff_list step cap rand max_retries) = (none, max_retries + 1)) := by
  have hlen : (backoff_list step cap rand max_retries).length = max_retries := by
    simp [backoff_list]
  constructor
  · have h := retry_go_count_le fac (backoff_list step cap rand max_retries) 0
    unfold retry_factory
    omega
  · intro hfac
    have h := retry_go_all_fail fac hfac (backoff_list step cap rand max_retries) 0
    unfold retry_factory
    rw [h, hlen]
    simp

/-- Witness for `retry_factory_invocation_bound` with 3 retries and an
always-failing factory. -/
theorem retry_factory_invocation_bound_witness :
    (retry_factory (fun _ => (none : Option Int)) (backoff_list 1 30 (fun _ => 0) 3)).2 ≤ 4 ∧
    retry_factory (fun _ => (none : Option Int)) (backoff_list 1 30 (fun _ => 0) 3) = (none, 4) :=
  have h := retry_factory_invocation_bound 1 30 (fun _ => 0) (fun _ => (none : Option Int)) 3
  ⟨h.1, h.2 (fun _ => rfl)⟩

/-! ## Structural lemmas

`buffer_sync` only flips `filling` and bumps `pending_fills`,
`factory_calls` and `full_waiters`; `monitor_levels` inherits that.  The
projection lemmas below record the untouched fields. -/

/-- Launching a fill cycle never touches the buffer itself. -/
@[simp] theorem buffer_sync_buf {T : Type} (cfg : PoolConfig T) (b : Bool) (s : PoolState T) :
    (buffer_sync cfg b s).1.buf = s.buf := by
  unfold buffer_sync; dsimp only; split_ifs <;> rfl

/-- Launching a fill cycle never touches the deferred-waiter queue. -/
@[simp] theorem buffer_sync_deferred {T : Type} (cfg : PoolConfig T) (b : Bool) (s : PoolState T) :
    (buffer_sync cfg b s).1.deferred = s.deferred := by
  unfold buffer_sync; dsimp only; split_ifs <;> rfl

/-- Launching a fill cycle never touches the draining flag. -/
@[simp] theorem buffer_sync_draining {T : Type} (cfg : PoolConfig T) (b : Bool) (s : PoolState T) :
    (buffer_sync cfg b s).1.draining = s.draining := by
  unfold buffer_sync; dsimp only; split_ifs <;> rfl

/-- Launching a fill cycle never destroys values. -/
@[simp] theorem buffer_sync_destroyed {T : Type} (cfg : PoolConfig T) (b : Bool) (s : PoolState T) :
    (buffer_sync cfg b s).1.destroyed = s.destroyed := by
  unfold buffer_sync; dsimp only; split_ifs <;> rfl

/-- Launching a fill cycle never resolves waiters. -/
@[simp] theorem buffer_sync_resolved {T : Type} (cfg : PoolConfig T) (b : Bool) (s : PoolState T) :
    (buffer_sync cfg b s).1.resolved = s.resolved := by
  unfold buffer_sync; dsimp only; split_ifs <;> rfl

/-- Launching a fill cycle never touches the lazy-fill counter. -/
@[simp] theorem buffer_sync_lazy {T : Type} (cfg : PoolConfig T) (b : Bool) (s : PoolState T) :
    (buffer_sync cfg b s).1.lazy_fills = s.lazy_fills := by
  unfold buffer_sync; dsimp only; split_ifs <;> rfl

/-- Launching a fill cycle never touches the drain-waiter queue. -/
@[simp] theorem buffer_sync_drain_waiters {T : Type} (cfg : PoolConfig T) (b : Bool) (s : PoolState T) :
    (buffer_sync cfg b s).1.drain_waiters = s.drain_waiters := by
  unfold buffer_sync; dsimp only; split_ifs <;> rfl

/-- Launching a fill cycle never marks the cycle failed. -/
@[simp] theorem buffer_sync_cycle_failed {T : Type} (cfg : PoolConfig T) (b : Bool) (s : PoolState T) :
    (buffer_sync cfg b s).1.cycle_failed = s.cycle_failed := by
  unfold buffer_sync; dsimp only; split_ifs <;> rfl

/-- Launching a fill cycle never signals the full event. -/
@[simp] theorem buffer_sync_full_signaled {T : Type} (cfg : PoolConfig T) (b : Bool) (s : PoolState T) :
    (buffer_sync cfg b s).1.full_signaled = s.full_signaled := by
  unfold buffer_sync; dsimp only; split_ifs <;> rfl

/-- Level monitoring never touches the buffer itself. -/
@[simp] theorem monitor_buf {T : Type} (cfg : PoolConfig T) (s : PoolState T) :
    (monitor_levels cfg s).buf = s.buf := by
  unfold monitor_levels; split_ifs <;> simp

/-- Level monitoring never touches the deferred-waiter queue. -/
@[simp] theorem monitor_deferred {T : Type} (cfg : PoolConfig T) (s : PoolState T) :
    (monitor_levels cfg s).deferred = s.deferred := by
  unfold monitor_levels; split_ifs <;> simp

/-- Level monitoring never touches the draining flag. -/
@[simp] theorem monitor_draining {T : Type} (cfg : PoolConfig T) (s : PoolState T) :
    (monitor_levels cfg s).draining = s.draining := by
  unfold monitor_levels; split_ifs <;> simp

/-- Level monitoring never destroys values. -/
@[simp] theorem monitor_destroyed {T : Type} (cfg : PoolConfig T) (s : PoolState T) :
    (monitor_levels cfg s).destroyed = s.destroyed := by
  unfold monitor_levels; split_ifs <;> simp

/-- Level monitoring never resolves waiters. -/
@[simp] theorem monitor_resolved {T : Type} (cfg : PoolConfig T) (s : PoolState T) :
    (monitor_levels cfg s).resolved = s.resolved := by
  unfold monitor_levels; split_ifs <;> simp

/-- Level monitoring never touches the lazy-fill counter. -/
@[simp] theorem monitor_lazy {T : Type} (cfg : PoolConfig T) (s : PoolState T) :
    (monitor_levels cfg s).lazy_fills = s.lazy_fills := by
  unfold monitor_levels; split_ifs <;> simp

/-- Level monitoring never marks the cycle failed. -/
@[simp] theorem monitor_cycle_failed {T : Type} (cfg : PoolConfig T) (s : PoolState T) :
    (monitor_levels cfg s).cycle_failed = s.cycle_failed := by
  unfold monitor_levels; split_ifs <;> simp

/-- Level monitoring never signals the full event. -/
@[simp] theorem monitor_full_signaled {T : Type} (cfg : PoolConfig T) (s : PoolState T) :
    (monitor_levels cfg s).full_signaled = s.full_signaled := by
  unfold monitor_levels; split_ifs <;> simp

/-- During an active fill cycle the `buffer(true)` fired by `monitor_levels`
coalesces, so the filling flag stays set. -/
theorem monitor_filling {T : Type} (cfg : PoolConfig T) (s : PoolState T)
    (h : s.filling = true) : (monitor_levels cfg s).filling = true := by
  unfold monitor_levels buffer_sync; split_ifs <;> simp [h]

/-- During an active fill cycle `monitor_levels` leaves the pending-attempt
count of that cycle alone. -/
theorem monitor_pending {T : Type} (cfg : PoolConfig T) (s : PoolState T)
    (h : s.filling = true) : (monitor_levels cfg s).pending_fills = s.pending_fills := by
  unfold monitor_levels buffer_sync; split_ifs <;> simp [h]

/-- The flush loop only removes values from the buffer. -/
theorem flush_go_buf_le {T : Type} (cfg : PoolConfig T) :
    ∀ (fuel : Nat) (s : PoolState T), (flush_go cfg fuel s).buf.length ≤ s.buf.length := by
  intro fuel
  induction fuel with
  | zero => intro s; simp [flush_go]
  | succ n ih =>
    intro s
    rw [flush_go]
    cases hbuf : s.buf with
    | nil => simp [hbuf]
    | cons x rest =>
      dsimp only
      split_ifs
      · simp
      · exact le_trans (ih _) (by simp)

/-- During an active fill cycle the flush loop keeps the filling flag set and
preserves the pending count, the failure flag and the completion flag of the
cycle. -/
theorem flush_go_cycle {T : Type} (cfg : PoolConfig T) :
    ∀ (fuel : Nat) (s : PoolState T), s.filling = true →
      (flush_go cfg fuel s).filling = true ∧
      (flush_go cfg fuel s).pending_fills = s.pending_fills ∧
      (flush_go cfg fuel s).cycle_failed = s.cycle_failed ∧
      (flush_go cfg fuel s).full_signaled = s.full_signaled := by
  intro fuel
  induction fuel with
  | zero => intro s h; simp [flush_go, h]
  | succ n ih =>
    intro s h
    rw [flush_go]
    cases hbuf : s.buf with
    | nil => simp [h]
    | cons x rest =>
      dsimp only
      split_ifs
      · simp [h]
      · have h1 : (monitor_levels cfg { s with deferred := s.deferred - 1, buf := rest }).filling
            = true := monitor_filling cfg _ h
        have h2 := monitor_pending cfg { s with deferred := s.deferred - 1, buf := rest } h
        have hrec := ih { monitor_levels cfg { s with deferred := s.deferred - 1, buf := rest } with
            resolved := (monitor_levels cfg { s with deferred := s.deferred - 1, buf := rest }).resolved ++ [x] }
          (by simpa using h1)
        refine ⟨hrec.1, ?_, ?_, ?_⟩
        · rw [hrec.2.1]
          simpa using h2
        · rw [hrec.2.2.1]
          simp
        · rw [hrec.2.2.2]
          simp

/-- The checked `put` never pushes above capacity: starting at or below
`max`, every branch of `put` leaves the buffer at or below `max`. -/
theorem put_drop_buf_le {T : Type} (cfg : PoolConfig T) [DecidableEq T]
    (s : PoolState T) (x : T) (h : s.buf.length ≤ cfg.max) :
    (put_drop cfg s x).buf.length ≤ cfg.max := by
  unfold put_drop put
  split_ifs with h1 h2 h3 h4
  · simpa [destroy] using h
  · simpa [destroy] using h
  · simpa [destroy] using h
  · simpa using h
  · have hlt : s.buf.length < cfg.max := by
      rcases not_or.mp h1 with ⟨hle, _⟩
      omega
    dsimp only
    have hfl := flush_go_buf_le cfg ({ s with buf := s.buf ++ [x] } : PoolState T).deferred
      { s with buf := s.buf ++ [x] }
    unfold flush_deferred
    calc (flush_go cfg ({ s with buf := s.buf ++ [x] } : PoolState T).deferred
            { s with buf := s.buf ++ [x] }).buf.length
        ≤ ({ s with buf := s.buf ++ [x] } : PoolState T).buf.length := hfl
      _ = s.buf.length + 1 := by simp
      _ ≤ cfg.max := hlt

/-- The checked `put` keeps the cycle bookkeeping intact while a fill cycle
is active (nothing in `put` completes or fails a cycle). -/
theorem put_drop_cycle {T : Type} (cfg : PoolConfig T) [DecidableEq T]
    (s : PoolState T) (x : T) (h : s.filling = true) :
    (put_drop cfg s x).filling = true ∧
    (put_drop cfg s x).pending_fills = s.pending_fills ∧
    (put_drop cfg s x).cycle_failed = s.cycle_failed ∧
    (put_drop cfg s x).full_signaled = s.full_signaled := by
  unfold put_drop put
  split_ifs with h1 h2 h3 h4
  · simp [destroy, h]
  · simp [destroy, h]
  · simp [destroy, h]
  · simp [h]
  · dsimp only
    unfold flush_deferred
    have hfl := flush_go_cycle cfg ({ s with buf := s.buf ++ [x] } : PoolState T).deferred
      { s with buf := s.buf ++ [x] } (by simpa using h)
    simpa using hfl

/-- The state component of `get` never grows the buffer. -/
theorem get_buf_le {T : Type} (cfg : PoolConfig T) (s : PoolState T) :
    (get cfg s).2.buf.length ≤ s.buf.length := by
  unfold get fill_one_launch
  cases hbuf : s.buf with
  | nil => dsimp only; split_ifs <;> simp [hbuf]
  | cons x rest => dsimp only; split_ifs <;> simp

/-! ## Claim theorems on the pool model -/

/-- Claim C1: for every sequence of `get()` and `put()` operations on a pool
whose buffer starts at or below the configured `max`, the buffer size
(`size()`) never exceeds `max` and never goes below zero. -/
theorem get_put_size_invariant {T : Type} (cfg : PoolConfig T) [DecidableEq T]
    (s : PoolState T) (ops : List (Op T)) (hinit : s.buf.length ≤ cfg.max) :
    (run_ops cfg s ops).buf.length ≤ cfg.max ∧
    (0 : Int) ≤ ((run_ops cfg s ops).buf.length : Int) := by
  constructor
  · induction ops generalizing s with
    | nil => simpa [run_ops] using hinit
    | cons o rest ih =>
      simp only [run_ops, List.foldl_cons] at *
      apply ih
      cases o with
      | get => exact le_trans (get_buf_le cfg s) hinit
      | put v => exact put_drop_buf_le cfg s v hinit
  · exact Int.natCast_nonneg _

/-- Witness for `get_put_size_invariant`: a concrete run with capacity 3. -/
theorem get_put_size_invariant_witness :
    (init_state Nat).buf.length ≤ (cfg_demo 3 1).max ∧
    ((run_ops (cfg_demo 3 1) (init_state Nat)
        [.put 5, .put 6, .put 7, .put 8, .get, .put 5]).buf.length ≤ (cfg_demo 3 1).max ∧
      (0 : Int) ≤ ((run_ops (cfg_demo 3 1) (init_state Nat)
        [.put 5, .put 6, .put 7, .put 8, .get, .put 5]).buf.length : Int)) :=
  ⟨by decide,
   get_put_size_invariant (cfg_demo 3 1) (init_state Nat)
     [.put 5, .put 6, .put 7, .put 8, .get, .put 5] (by decide)⟩

/-- Counterexample for claim C2: with `max=10, min=2, buffer_on_start`,
construction does reach `size()==10`, but eight successive `get()` calls
leave the pool at size 2 with NO refill triggered: `monitor_levels` fires
only when the size drops strictly below `min`, and 2 < 2 is false.  There
are no pending factory calls at all (so "once the pending factory calls
settle" the size is still 2, not 10), the filling flag is off, and the
factory was never invoked beyond the ten construction calls. -/
theorem min_threshold_no_refill :
    c2_ctor.buf.length = 10 ∧
    c2_after8.buf.length = 2 ∧
    c2_after8.filling = false ∧
    c2_after8.pending_fills = 0 ∧
    c2_after8.lazy_fills = 0 ∧
    c2_after8.factory_calls = 10 ∧
    ¬(2 = 10) := by
  decide

/-- Amended claim C2: with `max=10, min=2, buffer_on_start=true`,
construction reaches `size()==10`; draining eight via `get()` leaves
`size()==2` and triggers nothing (`min_threshold_no_refill`); the ninth
`get()` (post-pop size 1, strictly below `min`) still returns its value
immediately (the fill is fire-and-forget, not blocking) while launching one
background factory call, and once that pending factory call settles the
pool is back at `size()==min==2` — not at `max==10`. -/
theorem below_min_refill_to_min :
    c2_after9.1 = some 9 ∧
    c2_after9.2.filling = true ∧
    c2_after9.2.pending_fills = 1 ∧
    c2_after9.2.factory_calls = 11 ∧
    c2_final.buf = [10, 11] ∧
    c2_final.buf.length = 2 ∧
    c2_final.filling = false ∧
    c2_final.pending_fills = 0 := by
  decide

/-- Counterexample for claim C3: in a pool with `max = 1` whose buffer is
`[5]` (so the buffer is at capacity), `put(5)` — a value already present by
identity — does NOT raise the DuplicateValue TypeError: the `size() >= max`
guard runs BEFORE the duplicate scan, so the duplicate is silently routed to
the destructor instead. -/
theorem put_duplicate_at_max_destroys :
    5 ∈ c3_state.buf ∧
    put_raises (cfg_demo 1 0) c3_state 5 = false ∧
    put_drop (cfg_demo 1 0) c3_state 5 = destroy c3_state 5 ∧
    (put_drop (cfg_demo 1 0) c3_state 5).destroyed = [5] := by
  decide

/-- Amended claim C3: `put(x)` raises the DuplicateValue TypeError exactly
when `x` is already in the buffer AND none of the earlier guards fired: the
buffer must be strictly below `max`, the pool must not be draining, and both
health checks must pass.  (When the buffer is at capacity, the pool is
draining, or a health check fails, the duplicate is routed to the destructor
instead — see `put_duplicate_at_max_destroys`.) -/
theorem put_duplicate_raises {T : Type} (cfg : PoolConfig T) [DecidableEq T]
    (s : PoolState T) (x : T)
    (hmem : x ∈ s.buf) (hlen : s.buf.length < cfg.max) (hdrain : s.draining = false)
    (hsync : sync_rejects cfg x = false) (hasync : async_rejects cfg x = false) :
    put cfg s x = .error () := by
  have h1 : ¬(cfg.max ≤ s.buf.length ∨ s.draining = true) := by
    rintro (hle | hd)
    · omega
    · rw [hdrain] at hd
      exact Bool.false_ne_true hd
  simp [put, h1, hsync, hasync, hmem]

/-- Witness for `put_duplicate_raises`: a pool with room (`max = 2`) whose
buffer already holds 7 rejects `put(7)` with the DuplicateValue error. -/
theorem put_duplicate_raises_witness :
    7 ∈ ({ init_state Nat with buf := [7] } : PoolState Nat).buf ∧
    ({ init_state Nat with buf := [7] } : PoolState Nat).buf.length < (cfg_demo 2 0).max ∧
    ({ init_state Nat with buf := [7] } : PoolState Nat).draining = false ∧
    sync_rejects (cfg_demo 2 0) 7 = false ∧
    async_rejects (cfg_demo 2 0) 7 = false ∧
    put (cfg_demo 2 0) { init_state Nat with buf := [7] } 7 = .error () :=
  ⟨by decide, by decide, by decide, by decide, by decide,
   put_duplicate_raises (cfg_demo 2 0) { init_state Nat with buf := [7] } 7
     (by decide) (by decide) (by decide) (by decide) (by decide)⟩

/-- Claim C7: when the callback passed to `use` throws, the acquired
resource is sent to the destructor exactly once, `onError` is invoked
exactly once with the thrown value and nothing is re-thrown (outcome
`failed e`), the resource is never returned to the buffer (the buffer is
exactly the post-`get` buffer, and the resource is not in it), and no
waiter is resolved with it. -/
theorem use_callback_failure {T E : Type} (cfg : PoolConfig T) [DecidableEq T]
    (cb : T → Except E Unit) (s : PoolState T) (x : T) (rest : List T) (e : E)
    (hbuf : s.buf = x :: rest) (hx : cfg.falsy x = false) (hcb : cb x = .error e)
    (hnodup : x ∉ rest) :
    (use cfg cb s).2 = .failed e ∧
    (use cfg cb s).1.buf = rest ∧
    (use cfg cb s).1.destroyed = s.destroyed ++ [x] ∧
    x ∉ (use cfg cb s).1.buf ∧
    (use cfg cb s).1.resolved = s.resolved := by
  unfold use get
  rw [hbuf]
  dsimp only
  simp only [hx, Bool.false_eq_true, if_false, hcb]
  simp [destroy, hnodup]

/-- Witness for `use_callback_failure`: buffer `[7, 8]`, a callback that
always throws 42. -/
theorem use_callback_failure_witness :
    (({ init_state Nat with buf := [7, 8] } : PoolState Nat).buf = 7 :: [8] ∧
      (cfg_demo 5 0).falsy 7 = false ∧
      (fun _ : Nat => (Except.error 42 : Except Nat Unit)) 7 = .error 42 ∧
      (7 : Nat) ∉ [8]) ∧
    ((use (cfg_demo 5 0) (fun _ => Except.error 42)
        { init_state Nat with buf := [7, 8] }).2 = .failed 42 ∧
      (use (cfg_demo 5 0) (fun _ => Except.error 42)
        { init_state Nat with buf := [7, 8] }).1.buf = [8] ∧
      (use (cfg_demo 5 0) (fun _ => Except.error 42)
        { init_state Nat with buf := [7, 8] }).1.destroyed
          = ({ init_state Nat with buf := [7, 8] } : PoolState Nat).destroyed ++ [7] ∧
      7 ∉ (use (cfg_demo 5 0) (fun _ => Except.error 42)
        { init_state Nat with buf := [7, 8] }).1.buf ∧
      (use (cfg_demo 5 0) (fun _ => Except.error 42)
        { init_state Nat with buf := [7, 8] }).1.resolved
          = ({ init_state Nat with buf := [7, 8] } : PoolState Nat).resolved) :=
  ⟨⟨by decide, by decide, rfl, by decide⟩,
   use_callback_failure (cfg_demo 5 0) (fun _ => Except.error 42)
     { init_state Nat with buf := [7, 8] } 7 [8] 42
     (by decide) (by decide) rfl (by decide)⟩

/-- Claim C10: when the front of the buffer is a falsy value of `T`, `get()`
shifts it off and then takes the empty-buffer branch: the falsy resource is
neither handed to the caller (the promise stays pending, `none`) nor
destroyed nor kept — it is silently lost — while a lazy `fill_one` is fired
(one factory call starts, given room below `max`) and the caller is
registered as a deferred waiter. -/
theorem get_falsy_front_lost {T : Type} (cfg : PoolConfig T)
    (s : PoolState T) (x : T) (rest : List T)
    (hbuf : s.buf = x :: rest) (hfal : cfg.falsy x = true)
    (hroom : rest.length < cfg.max) (hnodup : x ∉ rest) :
    (get cfg s).1 = none ∧
    (get cfg s).2.buf = rest ∧
    (get cfg s).2.deferred = s.deferred + 1 ∧
    (get cfg s).2.lazy_fills = s.lazy_fills + 1 ∧
    (get cfg s).2.factory_calls = s.factory_calls + 1 ∧
    (get cfg s).2.destroyed = s.destroyed ∧
    (get cfg s).2.resolved = s.resolved ∧
    x ∉ (get cfg s).2.buf := by
  unfold get fill_one_launch
  rw [hbuf]
  dsimp only
  have hle : ¬(cfg.max ≤ rest.length) := not_le.mpr hroom
  simp only [hfal, if_true]
  refine ⟨?_, ?_, ?_, ?_, ?_, ?_, ?_, ?_⟩ <;> simp [hle, hnodup]

/-- Witness for `get_falsy_front_lost`: the JS number 0 is falsy; a buffer
`[0, 5]` loses the 0. -/
theorem get_falsy_front_lost_witness :
    (({ init_state Nat with buf := [0, 5] } : PoolState Nat).buf = 0 :: [5] ∧
      (cfg_demo 10 0).falsy 0 = true ∧
      [5].length < (cfg_demo 10 0).max ∧
      0 ∉ [5]) ∧
    ((get (cfg_demo 10 0) { init_state Nat with buf := [0, 5] }).1 = none ∧
      (get (cfg_demo 10 0) { init_state Nat with buf := [0, 5] }).2.buf = [5] ∧
      (get (cfg_demo 10 0) { init_state Nat with buf := [0, 5] }).2.deferred
        = ({ init_state Nat with buf := [0, 5] } : PoolState Nat).deferred + 1 ∧
      (get (cfg_demo 10 0) { init_state Nat with buf := [0, 5] }).2.lazy_fills
        = ({ init_state Nat with buf := [0, 5] } : PoolState Nat).lazy_fills + 1 ∧
      (get (cfg_demo 10 0) { init_state Nat with buf := [0, 5] }).2.factory_calls
        = ({ init_state Nat with buf := [0, 5] } : PoolState Nat).factory_calls + 1 ∧
      (get (cfg_demo 10 0) { init_state Nat with buf := [0, 5] }).2.destroyed
        = ({ init_state Nat with buf := [0, 5] } : PoolState Nat).destroyed ∧
      (get (cfg_demo 10 0) { init_state Nat with buf := [0, 5] }).2.resolved
        = ({ init_state Nat with buf := [0, 5] } : PoolState Nat).resolved ∧
      0 ∉ (get (cfg_demo 10 0) { init_state Nat with buf := [0, 5] }).2.buf) :=
  ⟨⟨by decide, by decide, by decide, by decide⟩,
   get_falsy_front_lost (cfg_demo 10 0) { init_state Nat with buf := [0, 5] } 0 [5]
     (by decide) (by decide) (by decide) (by decide)⟩

/-- With no falsy values buffered, the drain pop loop destroys every
buffered value and empties the buffer. -/
theorem drain_pop_all_truthy {T : Type} (cfg : PoolConfig T) :
    ∀ (l : List T), (∀ x ∈ l, cfg.falsy x = false) → drain_pop cfg l = (l, []) := by
  intro l
  induction l with
  | nil => intro _; rfl
  | cons x rest ih =>
    intro h
    unfold drain_pop
    simp [h x (List.mem_cons_self x rest), ih (fun y hy => h y (List.mem_cons_of_mem x hy))]

/-- A `buffer()` call that finds the filling flag set coalesces: it only
queues itself on the `full` event. -/
theorem buffer_sync_coalesce_eq {T : Type} (cfg : PoolConfig T) (b : Bool) (t : PoolState T)
    (h : t.filling = true) :
    (buffer_sync cfg b t).1 = { t with full_waiters := t.full_waiters + 1 } := by
  simp [buffer_sync, h]

/-- A `buffer()` call with no deficit returns immediately without touching
the state. -/
theorem buffer_sync_noop_eq {T : Type} (cfg : PoolConfig T) (t : PoolState T)
    (h1 : t.filling = false) (h2 : cfg.max - t.buf.length = 0) :
    (buffer_sync cfg false t).1 = t := by
  simp [buffer_sync, h1, h2]

/-- A `buffer()` call that starts a cycle sets the filling flag. -/
theorem buffer_sync_start_filling {T : Type} (cfg : PoolConfig T) (t : PoolState T)
    (h1 : t.filling = false) (h2 : ¬(cfg.max - t.buf.length = 0)) :
    (buffer_sync cfg false t).1.filling = true := by
  simp [buffer_sync, h1, h2]

/-- Iterated `buffer()` calls against a set filling flag only accumulate
event waiters: the factory-call count, flag and buffer are untouched. -/
theorem buffer_iter_filling {T : Type} (cfg : PoolConfig T) :
    ∀ (n : Nat) (t : PoolState T), t.filling = true →
      ((fun u => (buffer_sync cfg false u).1)^[n] t).factory_calls = t.factory_calls ∧
      ((fun u => (buffer_sync cfg false u).1)^[n] t).filling = true ∧
      ((fun u => (buffer_sync cfg false u).1)^[n] t).buf = t.buf := by
  intro n
  induction n with
  | zero => intro t h; simp [h]
  | succ m ih =>
    intro t h
    rw [Function.iterate_succ_apply]
    have hstep : (buffer_sync cfg false t).1 = { t with full_waiters := t.full_waiters + 1 } :=
      buffer_sync_coalesce_eq cfg false t h
    have hrec := ih { t with full_waiters := t.full_waiters + 1 } (by simpa using h)
    simp only [hstep]
    exact ⟨hrec.1, hrec.2.1, hrec.2.2⟩

/-- Iterated `buffer()` calls on a full, idle pool are all no-ops. -/
theorem buffer_iter_noop {T : Type} (cfg : PoolConfig T) :
    ∀ (n : Nat) (t : PoolState T), t.filling = false → cfg.max - t.buf.length = 0 →
      ((fun u => (buffer_sync cfg false u).1)^[n] t) = t := by
  intro n
  induction n with
  | zero => intro t _ _; simp
  | succ m ih =>
    intro t h1 h2
    rw [Function.iterate_succ_apply, buffer_sync_noop_eq cfg t h1 h2, ih t h1 h2]

/-- A `drain()` call that finds the draining flag set coalesces: it only
queues itself on the `drained` event. -/
theorem drain_sync_coalesce_eq {T : Type} (cfg : PoolConfig T) (t : PoolState T)
    (h : t.draining = true) :
    (drain_sync cfg t).1 = { t with drain_waiters := t.drain_waiters + 1 } := by
  simp [drain_sync, h]

/-- Iterated `drain()` calls against a set draining flag destroy nothing
further and leave the (already emptied) buffer alone. -/
theorem drain_iter_draining {T : Type} (cfg : PoolConfig T) :
    ∀ (n : Nat) (t : PoolState T), t.draining = true →
      ((fun u => (drain_sync cfg u).1)^[n] t).destroyed = t.destroyed ∧
      ((fun u => (drain_sync cfg u).1)^[n] t).buf = t.buf ∧
      ((fun u => (drain_sync cfg u).1)^[n] t).draining = true := by
  intro n
  induction n with
  | zero => intro t h; simp [h]
  | succ m ih =>
    intro t h
    rw [Function.iterate_succ_apply]
    have hstep : (drain_sync cfg t).1 = { t with drain_waiters := t.drain_waiters + 1 } :=
      drain_sync_coalesce_eq cfg t h
    have hrec := ih { t with drain_waiters := t.drain_waiters + 1 } (by simpa using h)
    simp only [hstep]
    exact ⟨hrec.1, hrec.2.1, hrec.2.2⟩

/-- Counterexample for claim C8: the claimed "exactly one destructor call
per buffered resource" fails on reachable states.  `put(0)` is accepted (no
guard of `put` consults truthiness), so the buffer `[1, 0, 2]` is reachable
by three puts; any number of concurrent `drain()` calls then destroys only
`[1]`: the pop loop `while ((x = buf.shift()))` shifts the falsy `0` and
stops, leaving `2` in the buffer and `0` lost — one destructor call for
three buffered resources. -/
theorem drain_falsy_drops_resources :
    (run_ops (cfg_demo 10 0) (init_state Nat) [.put 1, .put 0, .put 2]).buf = [1, 0, 2] ∧
    ((fun t => (drain_sync (cfg_demo 10 0) t).1)^[3]
        (run_ops (cfg_demo 10 0) (init_state Nat) [.put 1, .put 0, .put 2])).destroyed = [1] ∧
    ((fun t => (drain_sync (cfg_demo 10 0) t).1)^[3]
        (run_ops (cfg_demo 10 0) (init_state Nat) [.put 1, .put 0, .put 2])).buf = [2] ∧
    ¬(([1] : List Nat) = [1, 0, 2]) := by
  decide

/-- Amended claim C8: `n + 1` concurrent `buffer()` calls, all issued before
any completes, start exactly one fill cycle-local worth of factory calls
(the total factory count equals that after the single first call,
unconditionally); and `n + 1` concurrent `drain()` calls, all issued before
any completes, coalesce onto a single drain pass: the destroyed values and
the remaining buffer are exactly those of one `drain_pop` pass, no matter
how many calls were issued.  That single pass destroys the buffered values
in order only up to the first falsy one (which is shifted and lost, with
later values left buffered); in particular, when no buffered value is
falsy, every buffered resource is destroyed exactly once and the buffer is
emptied. -/
theorem concurrent_calls_single_cycle {T : Type} (cfg : PoolConfig T) (s : PoolState T) (n : Nat)
    (hfill : s.filling = false) (hdrain : s.draining = false) :
    ((fun t => (buffer_sync cfg false t).1)^[n + 1] s).factory_calls
      = ((buffer_sync cfg false s).1).factory_calls ∧
    ((fun t => (drain_sync cfg t).1)^[n + 1] s).destroyed
      = s.destroyed ++ (drain_pop cfg s.buf).1 ∧
    ((fun t => (drain_sync cfg t).1)^[n + 1] s).buf = (drain_pop cfg s.buf).2 ∧
    ((∀ x ∈ s.buf, cfg.falsy x = false) →
      (drain_pop cfg s.buf).1 = s.buf ∧ (drain_pop cfg s.buf).2 = []) := by
  have hdstart : (drain_sync cfg s).1
      = { s with draining := true, buf := (drain_pop cfg s.buf).2,
                 destroyed := s.destroyed ++ (drain_pop cfg s.buf).1 } := by
    simp [drain_sync, hdrain]
  refine ⟨?_, ?_, ?_, ?_⟩
  · by_cases hz : cfg.max - s.buf.length = 0
    · rw [Function.iterate_succ_apply, buffer_sync_noop_eq cfg s hfill hz,
        buffer_iter_noop cfg n s hfill hz]
    · rw [Function.iterate_succ_apply]
      exact (buffer_iter_filling cfg n (buffer_sync cfg false s).1
        (buffer_sync_start_filling cfg s hfill hz)).1
  · rw [Function.iterate_succ_apply, hdstart]
    have h := drain_iter_draining cfg n
      { s with draining := true, buf := (drain_pop cfg s.buf).2,
               destroyed := s.destroyed ++ (drain_pop cfg s.buf).1 } (by simp)
    simpa using h.1
  · rw [Function.iterate_succ_apply, hdstart]
    have h := drain_iter_draining cfg n
      { s with draining := true, buf := (drain_pop cfg s.buf).2,
               destroyed := s.destroyed ++ (drain_pop cfg s.buf).1 } (by simp)
    simpa using h.2.1
  · intro htruthy
    have h := drain_pop_all_truthy cfg s.buf htruthy
    rw [h]
    exact ⟨rfl, rfl⟩

/-- Witness for `concurrent_calls_single_cycle`: three concurrent calls on
a pool of capacity 4 holding `[1, 2]` (all truthy, so the single drain pass
destroys both values). -/
theorem concurrent_calls_single_cycle_witness :
    (({ init_state Nat with buf := [1, 2] } : PoolState Nat).filling = false ∧
      ({ init_state Nat with buf := [1, 2] } : PoolState Nat).draining = false) ∧
    (((fun t => (buffer_sync (cfg_demo 4 0) false t).1)^[3]
        { init_state Nat with buf := [1, 2] }).factory_calls
      = ((buffer_sync (cfg_demo 4 0) false
          { init_state Nat with buf := [1, 2] }).1).factory_calls ∧
    ((fun t => (drain_sync (cfg_demo 4 0) t).1)^[3]
        { init_state Nat with buf := [1, 2] }).destroyed
      = ({ init_state Nat with buf := [1, 2] } : PoolState Nat).destroyed
          ++ (drain_pop (cfg_demo 4 0)
                ({ init_state Nat with buf := [1, 2] } : PoolState Nat).buf).1 ∧
    ((fun t => (drain_sync (cfg_demo 4 0) t).1)^[3]
        { init_state Nat with buf := [1, 2] }).buf
      = (drain_pop (cfg_demo 4 0)
            ({ init_state Nat with buf := [1, 2] } : PoolState Nat).buf).2 ∧
    ((∀ x ∈ ({ init_state Nat with buf := [1, 2] } : PoolState Nat).buf,
        (cfg_demo 4 0).falsy x = false) →
      (drain_pop (cfg_demo 4 0)
          ({ init_state Nat with buf := [1, 2] } : PoolState Nat).buf).1 = [1, 2] ∧
      (drain_pop (cfg_demo 4 0)
          ({ init_state Nat with buf := [1, 2] } : PoolState Nat).buf).2 = [])) :=
  ⟨⟨by decide, by decide⟩,
   concurrent_calls_single_cycle (cfg_demo 4 0) { init_state Nat with buf := [1, 2] } 2
     (by decide) (by decide)⟩

/-- Unfolding equation for `settle_slot` on a successful attempt of an
incomplete cycle. -/
theorem settle_slot_ok {T : Type} (cfg : PoolConfig T) [DecidableEq T]
    (s : PoolState T) (v : T) (hp : ¬(s.pending_fills = 0)) :
    settle_slot cfg s (.ok v) =
      if (put_drop cfg s v).pending_fills - 1 = 0 ∧ (put_drop cfg s v).cycle_failed = false
      then { put_drop cfg s v with
             pending_fills := (put_drop cfg s v).pending_fills - 1,
             filling := false, full_signaled := true, full_waiters := 0 }
      else { put_drop cfg s v with pending_fills := (put_drop cfg s v).pending_fills - 1 } := by
  unfold settle_slot
  rw [if_neg hp]

/-- Unfolding equation for `settle_slot` on a RetryLimitError attempt of an
incomplete cycle: the rejection is recorded and the completion branch is
unreachable (`cycle_failed` is set). -/
theorem settle_slot_fail {T : Type} (cfg : PoolConfig T) [DecidableEq T]
    (s : PoolState T) (hp : ¬(s.pending_fills = 0)) :
    settle_slot cfg s .retry_limit =
      { s with cycle_failed := true, pending_fills := s.pending_fills - 1 } := by
  unfold settle_slot
  rw [if_neg hp]
  dsimp only
  rw [if_neg]
  simp

/-- Generalized induction for a settling fill cycle that contains (or has
already recorded) a RetryLimitError: the cycle never reaches its completion
branch, so the filling flag stays set and the full event is never invoked,
while the `Promise.all` rejection is recorded in `cycle_failed`. -/
theorem settle_fold_failure {T : Type} (cfg : PoolConfig T) [DecidableEq T] :
    ∀ (slots : List (SlotOutcome T)) (s : PoolState T),
      s.filling = true → s.pending_fills = slots.length → s.full_signaled = false →
      ((SlotOutcome.retry_limit ∈ slots) ∨ s.cycle_failed = true) →
      (slots.foldl (settle_slot cfg) s).filling = true ∧
      (slots.foldl (settle_slot cfg) s).full_signaled = false ∧
      (slots.foldl (settle_slot cfg) s).cycle_failed = true := by
  intro slots
  induction slots with
  | nil =>
    intro s hfill hpend hsig hfail
    rcases hfail with hmem | hcf
    · simp at hmem
    · exact ⟨hfill, hsig, hcf⟩
  | cons o rest ih =>
    intro s hfill hpend hsig hfail
    simp only [List.foldl_cons]
    have hp : ¬(s.pending_fills = 0) := by
      rw [hpend]; simp
    cases o with
    | ok v =>
      have hpd := put_drop_cycle cfg s v hfill
      have hfail2 : (SlotOutcome.retry_limit (T := T)) ∈ rest ∨ s.cycle_failed = true := by
        rcases hfail with hmem | hcf
        · rcases List.mem_cons.mp hmem with heq | hr
          · exact absurd heq (by simp)
          · exact Or.inl hr
        · exact Or.inr hcf
      rw [settle_slot_ok cfg s v hp]
      split_ifs with hcomp
      · exfalso
        have hc1 := hcomp.1
        rw [hpd.2.1, hpend] at hc1
        have hc2 := hcomp.2
        rw [hpd.2.2.1] at hc2
        rcases hfail2 with hmem | hcf
        · have hnil : rest = [] := by
            cases rest with
            | nil => rfl
            | cons a b => simp at hc1
          rw [hnil] at hmem
          simp at hmem
        · rw [hcf] at hc2
          simp at hc2
      · apply ih
        · simpa using hpd.1
        · have : (put_drop cfg s v).pending_fills - 1 = rest.length := by
            rw [hpd.2.1, hpend]; simp
          simpa using this
        · simpa using hpd.2.2.2.trans hsig
        · rcases hfail2 with hmem | hcf
          · exact Or.inl hmem
          · exact Or.inr (by simpa using hpd.2.2.1.trans hcf)
    | retry_limit =>
      rw [settle_slot_fail cfg s hp]
      apply ih
      · simpa using hfill
      · have : s.pending_fills - 1 = rest.length := by rw [hpend]; simp
        simpa using this
      · simpa using hsig
      · exact Or.inr (by simp)

/-- Counterexample for claim C5: in a two-slot fill cycle where one attempt
fails with RetryLimitError, the failure is NOT dropped: `fill_one` does not
catch it, so the cycle-local `Promise.all` rejects (`cycle_failed = true`) and
the code after the `await` never runs — the filling flag is NOT cleared and
the `full` completion event is NOT signalled.  (The sibling success is still
buffered: the attempts themselves are not aborted.) -/
theorem cycle_failure_not_dropped :
    c5_launch.filling = true ∧
    c5_launch.pending_fills = 2 ∧
    c5_final.buf = [1] ∧
    c5_final.cycle_failed = true ∧
    ¬(c5_final.filling = false) ∧
    ¬(c5_final.full_signaled = true) := by
  decide

/-- Amended claim C5: when a fill cycle contains an attempt that fails
permanently with RetryLimitError, the rejection propagates out of the
cycle-local `Promise.all` (recorded as `cycle_failed = true`, i.e. `buffer()`
rejects): sibling attempts still settle independently (their values are
still `put`), but the cycle never runs its completion code — the filling
flag is never cleared and the `full` completion event is never signalled to
the waiters queued on this cycle. -/
theorem fill_failure_rejects_cycle {T : Type} (cfg : PoolConfig T) [DecidableEq T]
    (slots : List (SlotOutcome T)) (s : PoolState T)
    (hfill : s.filling = true) (hpend : s.pending_fills = slots.length)
    (hsig : s.full_signaled = false) (hmem : SlotOutcome.retry_limit ∈ slots) :
    (slots.foldl (settle_slot cfg) s).filling = true ∧
    (slots.foldl (settle_slot cfg) s).full_signaled = false ∧
    (slots.foldl (settle_slot cfg) s).cycle_failed = true :=
  settle_fold_failure cfg slots s hfill hpend hsig (Or.inl hmem)

/-- Witness for `fill_failure_rejects_cycle` on the concrete two-slot
cycle. -/
theorem fill_failure_rejects_cycle_witness :
    (c5_launch.filling = true ∧
      c5_launch.pending_fills = [SlotOutcome.ok 1, SlotOutcome.retry_limit].length ∧
      c5_launch.full_signaled = false ∧
      SlotOutcome.retry_limit ∈ [SlotOutcome.ok 1, SlotOutcome.retry_limit]) ∧
    (([SlotOutcome.ok 1, SlotOutcome.retry_limit].foldl
        (settle_slot (cfg_demo 2 0)) c5_launch).filling = true ∧
      ([SlotOutcome.ok 1, SlotOutcome.retry_limit].foldl
        (settle_slot (cfg_demo 2 0)) c5_launch).full_signaled = false ∧
      ([SlotOutcome.ok 1, SlotOutcome.retry_limit].foldl
        (settle_slot (cfg_demo 2 0)) c5_launch).cycle_failed = true) :=
  ⟨⟨by decide, by decide, by decide, by decide⟩,
   fill_failure_rejects_cycle (cfg_demo 2 0) [SlotOutcome.ok 1, SlotOutcome.retry_limit]
     c5_launch (by decide) (by decide) (by decide) (by decide)⟩

/-- The invariant holds right after `drain()` cancelled the pending sleep. -/
theorem cycle_inv_init : CycleInv (cancel_sleep mid_backoff) :=
  ⟨rfl, rfl, rfl, rfl, rfl, rfl, rfl, rfl⟩

/-- Every step of the machine preserves the invariant: firing is disabled
(the timer was cleared), so resumption, settlement and completion stay
disabled, and further `buffer()` calls only queue up. -/
theorem cycle_inv_step (s t : CycleSt) (hinv : CycleInv s) (hstep : CycleStep s t) :
    CycleInv t := by
  obtain ⟨i1, i2, i3, i4, i5, i6, i7, i8⟩ := hinv
  cases hstep with
  | timer_fire h1 h2 =>
    rw [i1] at h1
    exact absurd h1 (by simp)
  | attempt_settle h =>
    rw [i4] at h
    exact absurd h (by simp)
  | cycle_complete h =>
    rw [i5] at h
    exact absurd h (by simp)
  | buffer_coalesce h =>
    exact ⟨i1, i2, i3, i4, i5, i6, i7, i8⟩
  | cancel_again =>
    unfold cancel_sleep
    split
    · exact ⟨i1, i2, i3, i4, i5, i6, i7, i8⟩
    · exact ⟨rfl, i2, i3, i4, i5, i6, i7, i8⟩

/-- Claim C9: if `drain()` cancels the sleep token of a fill attempt that is
suspended on its backoff delay, then in every state reachable afterwards the
token has never invoked its then-listeners (`fired = 0`), the fill attempt
has never settled, the filling flag is still set, the `full` completion
event has never been signalled, and no `buffer()` call queued on that cycle
has ever resumed — they suspend forever. -/
theorem drain_cancel_stalls_cycle (s : CycleSt)
    (h : Relation.ReflTransGen CycleStep (cancel_sleep mid_backoff) s) :
    s.fired = 0 ∧ s.attempt_settled = false ∧ s.filling = true ∧
    s.full_signaled = false ∧ s.resumed_waiters = 0 := by
  have hinv : CycleInv s := by
    induction h with
    | refl => exact cycle_inv_init
    | tail hsteps hstep ih => exact cycle_inv_step _ _ ih hstep
  exact ⟨hinv.2.2.1, hinv.2.2.2.2.1, hinv.2.2.2.2.2.1,
    hinv.2.2.2.2.2.2.1, hinv.2.2.2.2.2.2.2⟩

/-- Witness for `drain_cancel_stalls_cycle` at the (reachable) initial
state itself. -/
theorem drain_cancel_stalls_cycle_witness :
    (cancel_sleep mid_backoff).fired = 0 ∧
    (cancel_sleep mid_backoff).attempt_settled = false ∧
    (cancel_sleep mid_backoff).filling = true ∧
    (cancel_sleep mid_backoff).full_signaled = false ∧
    (cancel_sleep mid_backoff).resumed_waiters = 0 :=
  drain_cancel_stalls_cycle (cancel_sleep mid_backoff) Relation.ReflTransGen.refl

end PoolerModel
